import Mathlib

/-!
Verification of the fio report pipeline of virt-perf-scripts.

The development shallowly embeds the two report generators:

* `network/GenerateNetworkTestReport.py` (class `FioTestReporter`):
  locating the first json block of a fio log (`_get_raw_data_from_fio_log`),
  extracting the performance KPIs of one raw record
  (`_get_kpis_from_raw_data`), the loading loop over fio logs
  (`load_raw_data_from_fio_logs`) and the KPI-calculation loop
  (`calculate_performance_kpis`).
* `block/GenerateBenchmarkReport.py` (class `FioBenchmarkReporter`):
  the comparison-table construction of `FioBenchmarkReporter.test`.

External collaborators (the json decoder, the filesystem, python `eval`
over the description string, `scipy` standard deviation and t-test) are
taken as parameters of the embedded functions.  Python floats are
modelled by `ℚ`; a python function that returns `(1, None)` on failure is
modelled by an `Option` result, `none` standing for the failure branch.
-/

/-! ### LogBlockExtractor
`FioTestReporter._get_raw_data_from_fio_log` scans the lines of the log
for the first line matching `^{` (python: `re.search(r'^{', line)`, i.e.
the first character of the line is `{`), then from that position for the
first line matching `^}`; `begin`, `end` and the scan position start at
`0`, and a scan that exhausts the file leaves the corresponding index at
its default `0`.  If `begin >= end` the function fails, otherwise it
feeds `file_content[begin:end + 1]` to the json decoder and fails
exactly when the decoder does. -/

/-- A line matching `re.search(r'^{', line)`: its first character is `{`. -/
def braceLine (l : String) : Bool := l.data.head? == some '{'

/-- A line matching `re.search(r'^}', line)`: its first character is `}`. -/
def closeLine (l : String) : Bool := l.data.head? == some '}'

/-- The python `while num < len(file_content)` scan: index of the first
element satisfying `p`, if any. -/
def scanIdx (p : String → Bool) : List String → Option Nat
  | [] => none
  | l :: ls => if p l then some 0 else (scanIdx p ls).map (· + 1)

/-- The offsets `(begin, end)` computed by the two `while` loops of
`_get_raw_data_from_fio_log`.  The second scan resumes at `num = begin`
(on `file_content[begin:]`), and an exhausted scan leaves the default
offset `0` in place. -/
def locateJsonBlock (content : List String) : Nat × Nat :=
  match scanIdx braceLine content with
  | none => (0, 0)
  | some b =>
    match scanIdx closeLine (content.drop b) with
    | none => (b, 0)
    | some k => (b, b + k)

/-- The slice `file_content[begin:end + 1]` handed to the json decoder. -/
def jsonBlock (content : List String) (b e : Nat) : List String :=
  (content.drop b).take (e - b + 1)

/-- `FioTestReporter._get_raw_data_from_fio_log`, parametrised by the
json decoder (`json.load` is an external collaborator).  `none` models
the `(1, None)` failure result, `some raw` the `(0, raw_data)` result. -/
def _get_raw_data_from_fio_log {R : Type} (decode : List String → Option R)
    (content : List String) : Option R :=
  if (locateJsonBlock content).2 ≤ (locateJsonBlock content).1 then none
  else decode (jsonBlock content (locateJsonBlock content).1 (locateJsonBlock content).2)

/-- The first line starting with `{` sits at index `b`. -/
def IsFirstOpen (content : List String) (b : Nat) : Prop :=
  (∃ x, content[b]? = some x ∧ braceLine x = true) ∧
    ∀ j, j < b → ∀ x, content[j]? = some x → braceLine x = false

/-- The first line starting with `}` at an index strictly greater than
`b` sits at index `e`. -/
def IsFirstCloseAfter (content : List String) (b e : Nat) : Prop :=
  b < e ∧ ((∃ x, content[e]? = some x ∧ closeLine x = true) ∧
    ∀ j, b < j → j < e → ∀ x, content[j]? = some x → closeLine x = false)

theorem braceLine_not_closeLine {l : String} (h : braceLine l = true) :
    closeLine l = false := by
  simp only [braceLine, beq_iff_eq] at h
  simp [closeLine, h]

theorem scanIdx_eq_none_iff (p : String → Bool) (l : List String) :
    scanIdx p l = none ↔ ∀ x ∈ l, p x = false := by
  induction l with
  | nil => simp [scanIdx]
  | cons a as ih =>
    by_cases h : p a
    · simp only [scanIdx, h, if_true]
      constructor
      · intro heq; exact absurd heq (by simp)
      · intro hall
        have hfa := hall a (List.mem_cons_self a as)
        rw [h] at hfa; cases hfa
    · have hline : scanIdx p (a :: as) = (scanIdx p as).map (· + 1) := by
        simp [scanIdx, h]
      rw [hline]
      simp only [Option.map_eq_none', ih, List.mem_cons]
      constructor
      · intro hall x hx
        rcases hx with rfl | hx
        · exact Bool.eq_false_iff.mpr h
        · exact hall x hx
      · intro hall x hx
        exact hall x (Or.inr hx)

theorem scanIdx_eq_some_iff (p : String → Bool) (l : List String) (i : Nat) :
    scanIdx p l = some i ↔
      ((∃ x, l[i]? = some x ∧ p x = true) ∧
        ∀ j, j < i → ∀ x, l[j]? = some x → p x = false) := by
  induction l generalizing i with
  | nil => simp [scanIdx]
  | cons a as ih =>
    by_cases h : p a
    · simp only [scanIdx, h, if_true]
      constructor
      · intro heq
        have hi : (0 : Nat) = i := Option.some.inj heq
        subst hi
        refine ⟨⟨a, by simp, h⟩, ?_⟩
        intro j hj x hx; omega
      · rintro ⟨⟨x, hx, hpx⟩, hmin⟩
        cases i with
        | zero => rfl
        | succ n =>
          have hz := hmin 0 (Nat.succ_pos n) a (by simp)
          rw [h] at hz; cases hz
    · have hline : scanIdx p (a :: as) = (scanIdx p as).map (· + 1) := by
        simp [scanIdx, h]
      rw [hline]
      cases i with
      | zero =>
        simp only [Option.map_eq_some']
        constructor
        · rintro ⟨m, _, hm⟩; omega
        · rintro ⟨⟨x, hx, hpx⟩, _⟩
          rw [List.getElem?_cons_zero, Option.some.injEq] at hx
          subst hx
          exact absurd hpx h
      | succ n =>
        simp only [Option.map_eq_some']
        constructor
        · rintro ⟨m, hm, hm1⟩
          have hmn : m = n := by omega
          subst hmn
          rcases (ih m).mp hm with ⟨⟨x, hx, hpx⟩, hmin⟩
          refine ⟨⟨x, ?_, hpx⟩, ?_⟩
          · rw [List.getElem?_cons_succ]; exact hx
          · intro j hj y hy
            cases j with
            | zero =>
              rw [List.getElem?_cons_zero, Option.some.injEq] at hy
              subst hy
              exact Bool.eq_false_iff.mpr h
            | succ m =>
              rw [List.getElem?_cons_succ] at hy
              exact hmin m (by omega) y hy
        · rintro ⟨⟨x, hx, hpx⟩, hmin⟩
          rw [List.getElem?_cons_succ] at hx
          refine ⟨n, (ih n).mpr ⟨⟨x, hx, hpx⟩, ?_⟩, rfl⟩
          intro j hj y hy
          have hys := hmin (j + 1) (by omega) y
          rw [List.getElem?_cons_succ] at hys
          exact hys hy

theorem isFirstOpen_iff_scan (content : List String) (b : Nat) :
    IsFirstOpen content b ↔ scanIdx braceLine content = some b := by
  rw [scanIdx_eq_some_iff]; rfl

theorem isFirstOpen_unique {content : List String} {b b' : Nat}
    (h : IsFirstOpen content b) (h' : IsFirstOpen content b') : b = b' := by
  rcases h with ⟨⟨x, hx, hpx⟩, hmin⟩
  rcases h' with ⟨⟨y, hy, hpy⟩, hmin'⟩
  rcases Nat.lt_trichotomy b b' with hlt | heq | hgt
  · rw [hmin' b hlt x hx] at hpx; cases hpx
  · exact heq
  · rw [hmin b' hgt y hy] at hpy; cases hpy

theorem mem_of_getElem_eq_some {α : Type} {l : List α} {i : Nat} {x : α}
    (h : l[i]? = some x) : x ∈ l := by
  rw [List.getElem?_eq_some_iff] at h
  rcases h with ⟨hi, rfl⟩
  exact List.getElem_mem hi

theorem isFirstCloseAfter_iff {content : List String} {b : Nat}
    (h : IsFirstOpen content b) (e : Nat) :
    IsFirstCloseAfter content b e ↔
      (b < e ∧ scanIdx closeLine (content.drop b) = some (e - b)) := by
  constructor
  · rintro ⟨hbe, ⟨x, hx, hcx⟩, hmin⟩
    refine ⟨hbe, (scanIdx_eq_some_iff _ _ _).mpr ⟨⟨x, ?_, hcx⟩, ?_⟩⟩
    · rw [List.getElem?_drop]
      have hbe2 : b + (e - b) = e := by omega
      rw [hbe2]; exact hx
    · intro j hj y hy
      rw [List.getElem?_drop] at hy
      rcases Nat.eq_zero_or_pos j with hj0 | hjpos
      · subst hj0
        rw [Nat.add_zero] at hy
        rcases h with ⟨⟨z, hz, hbz⟩, _⟩
        rw [hz] at hy
        have hzy : z = y := Option.some.inj hy
        subst hzy
        exact braceLine_not_closeLine hbz
      · exact hmin (b + j) (by omega) (by omega) y hy
  · rintro ⟨hbe, hscan⟩
    rcases (scanIdx_eq_some_iff _ _ _).mp hscan with ⟨⟨x, hx, hcx⟩, hmin⟩
    rw [List.getElem?_drop] at hx
    have hbe2 : b + (e - b) = e := by omega
    rw [hbe2] at hx
    refine ⟨hbe, ⟨x, hx, hcx⟩, ?_⟩
    intro j hbj hje y hy
    have hy2 : (content.drop b)[j - b]? = some y := by
      rw [List.getElem?_drop]
      have hjb : b + (j - b) = j := by omega
      rw [hjb]; exact hy
    exact hmin (j - b) (by omega) y hy2

theorem isFirstCloseAfter_unique {content : List String} {b e e' : Nat}
    (h : IsFirstCloseAfter content b e) (h' : IsFirstCloseAfter content b e') :
    e = e' := by
  rcases h with ⟨hbe, ⟨x, hx, hcx⟩, hmin⟩
  rcases h' with ⟨hbe', ⟨y, hy, hcy⟩, hmin'⟩
  rcases Nat.lt_trichotomy e e' with hlt | heq | hgt
  · rw [hmin' e hbe hlt x hx] at hcx; cases hcx
  · exact heq
  · rw [hmin e' hbe' hgt y hy] at hcy; cases hcy

/-- Claim C3: for every input text, the log-block extractor fails exactly
when no line starting with `{` exists, or no line starting with `}` exists
at an index strictly greater than the first `{`-line, or the computed
begin offset is at least the computed end offset (the end offset
defaulting to `0` when no closing line is found), or the json decoder
rejects the extracted block; otherwise it parses the inclusive line range
from begin to end as one json document, failing on decode error and
succeeding with the decoded record. -/
theorem C3_log_block_extractor (R : Type) (decode : List String → Option R)
    (content : List String) :
    (_get_raw_data_from_fio_log decode content = none ↔
      (∀ l ∈ content, braceLine l = false) ∨
      (∃ b, IsFirstOpen content b ∧
        ∀ j, b < j → ∀ x, content[j]? = some x → closeLine x = false) ∨
      (locateJsonBlock content).2 ≤ (locateJsonBlock content).1 ∨
      (∃ b e, IsFirstOpen content b ∧ IsFirstCloseAfter content b e ∧
        decode (jsonBlock content b e) = none)) ∧
    (∀ r : R, _get_raw_data_from_fio_log decode content = some r ↔
      ∃ b e, IsFirstOpen content b ∧ IsFirstCloseAfter content b e ∧
        decode (jsonBlock content b e) = some r) := by
  rcases h1 : scanIdx braceLine content with _ | b
  · have hloc : locateJsonBlock content = (0, 0) := by
      simp [locateJsonBlock, h1]
    have hres : _get_raw_data_from_fio_log decode content = none := by
      simp [_get_raw_data_from_fio_log, hloc]
    constructor
    · exact iff_of_true hres (Or.inl ((scanIdx_eq_none_iff _ _).mp h1))
    · intro r
      rw [hres]
      constructor
      · intro hc; cases hc
      · rintro ⟨b, e, hopen, _, _⟩
        rw [isFirstOpen_iff_scan, h1] at hopen
        cases hopen
  · have hopen : IsFirstOpen content b := (isFirstOpen_iff_scan _ _).mpr h1
    rcases h2 : scanIdx closeLine (content.drop b) with _ | k
    · have hloc : locateJsonBlock content = (b, 0) := by
        simp [locateJsonBlock, h1, h2]
      have hres : _get_raw_data_from_fio_log decode content = none := by
        simp [_get_raw_data_from_fio_log, hloc]
      have hnoclose : ∀ j, b < j → ∀ x, content[j]? = some x →
          closeLine x = false := by
        intro j hj x hx
        have hx2 : (content.drop b)[j - b]? = some x := by
          rw [List.getElem?_drop]
          have hjb : b + (j - b) = j := by omega
          rw [hjb]; exact hx
        have hmem : x ∈ content.drop b := by
          exact mem_of_getElem_eq_some hx2
        exact (scanIdx_eq_none_iff _ _).mp h2 x hmem
      constructor
      · exact iff_of_true hres (Or.inr (Or.inl ⟨b, hopen, hnoclose⟩))
      · intro r
        rw [hres]
        constructor
        · intro hc; cases hc
        · rintro ⟨b', e', hopen', hclose', _⟩
          have hb : b = b' := isFirstOpen_unique hopen hopen'
          subst hb
          rw [isFirstCloseAfter_iff hopen] at hclose'
          rcases hclose' with ⟨_, hscan⟩
          rw [h2] at hscan
          cases hscan
    · have hk : 1 ≤ k := by
        by_contra hc
        have hk0 : k = 0 := by omega
        subst hk0
        rcases (scanIdx_eq_some_iff _ _ _).mp h2 with ⟨⟨x, hx, hcx⟩, _⟩
        rcases hopen with ⟨⟨y, hy, hby⟩, _⟩
        rw [List.getElem?_drop, Nat.add_zero, hy] at hx
        have hxy : y = x := Option.some.inj hx
        subst hxy
        rw [braceLine_not_closeLine hby] at hcx
        cases hcx
      have hloc : locateJsonBlock content = (b, b + k) := by
        simp [locateJsonBlock, h1, h2]
      have hres : _get_raw_data_from_fio_log decode content =
          decode (jsonBlock content b (b + k)) := by
        simp only [_get_raw_data_from_fio_log, hloc]
        rw [if_neg (by omega)]
      have hclose : IsFirstCloseAfter content b (b + k) := by
        rw [isFirstCloseAfter_iff hopen]
        refine ⟨by omega, ?_⟩
        have hbk : b + k - b = k := by omega
        rw [hbk]; exact h2
      constructor
      · rw [hres]
        constructor
        · intro hdec
          exact Or.inr (Or.inr (Or.inr ⟨b, b + k, hopen, hclose, hdec⟩))
        · rintro (hD1 | hD2 | hD3 | hD4)
          · rcases hopen with ⟨⟨x, hx, hbx⟩, _⟩
            have hmem : x ∈ content := mem_of_getElem_eq_some hx
            rw [hD1 x hmem] at hbx
            cases hbx
          · rcases hD2 with ⟨b', hopen', hnone⟩
            have hb : b = b' := isFirstOpen_unique hopen hopen'
            subst hb
            rcases hclose with ⟨hbe, ⟨x, hx, hcx⟩, _⟩
            rw [hnone (b + k) (by omega) x hx] at hcx
            cases hcx
          · rw [hloc] at hD3
            simp only [] at hD3
            omega
          · rcases hD4 with ⟨b', e', hopen', hclose', hdec⟩
            have hb : b = b' := isFirstOpen_unique hopen hopen'
            subst hb
            have he : b + k = e' := isFirstCloseAfter_unique hclose hclose'
            subst he
            exact hdec
      · intro r
        rw [hres]
        constructor
        · intro hdec
          exact ⟨b, b + k, hopen, hclose, hdec⟩
        · rintro ⟨b', e', hopen', hclose', hdec⟩
          have hb : b = b' := isFirstOpen_unique hopen hopen'
          subst hb
          have he : b + k = e' := isFirstCloseAfter_unique hclose hclose'
          subst he
          exact hdec

/-! ### KpiExtractor
`FioTestReporter._get_kpis_from_raw_data` reads the raw-data dictionary
decoded from a fio log.  A missing dictionary key raises a `KeyError`
which the surrounding `try` turns into the `(1, None)` failure result;
the embedding models every accessed leaf as an `Option` and the whole
extraction as an `Option` chain.  Python floats are modelled by `ℚ` and
`int()` truncation toward zero by truncated integer division on the
numerator and denominator. -/

/-- The `job options` sub-dictionary of the first job entry.  Each field
the extractor reads is optional: a missing key fails the extraction,
except `description` whose absence is caught by the inner `try`. -/
structure JobOptions where
  rw : Option String
  bs : Option String
  iodepth : Option String
  numjobs : Option String
  description : Option String
deriving DecidableEq

/-- The `read` or `write` sub-dictionary of a job entry: `bw` (KiB/s),
`iops`, `lat_ns -> mean` and the `clat_ns -> percentile` mapping. -/
structure SideStats where
  bw : Option ℚ
  iops : Option ℚ
  lat_mean : Option ℚ
  clat_percentile : Option (List (String × ℚ))
deriving DecidableEq

/-- One entry of the `jobs` list of the raw data. -/
structure FioJob where
  options : JobOptions
  read : SideStats
  write : SideStats
deriving DecidableEq

/-- One entry of the `disk_util` list: `util`, and the `aggr_util` key
whose presence tags the entry as an aggregate entry. -/
structure DiskUtil where
  util : ℚ
  aggr_util : Option ℚ
deriving DecidableEq

/-- The raw data of one fio log: the `jobs` list and the optional
`disk_util` list. -/
structure RawData where
  jobs : List FioJob
  disk_util : Option (List DiskUtil)
deriving DecidableEq

/-- The tag dictionary produced by `eval` over the job description
(`driver`, `format`, `round`, `backend`; a missing key stays absent). -/
structure DescTags where
  driver : Option String
  format : Option String
  round : Option String
  backend : Option String
deriving DecidableEq

/-- The performance-KPI record built by `_get_kpis_from_raw_data`.  The
`'NaN'` sentinel written for an unavailable utilization or tag is
modelled by `none`. -/
structure KpiRecord where
  rw : String
  bs : String
  iodepth : String
  numjobs : String
  r_bw : ℚ
  w_bw : ℚ
  bw : ℚ
  r_iops : ℤ
  w_iops : ℤ
  iops : ℤ
  r_lat : ℚ
  w_lat : ℚ
  lat : ℚ
  r_clat90 : ℚ
  w_clat90 : ℚ
  clat90 : ℚ
  util : Option ℚ
  driver : Option String
  format : Option String
  round : Option String
  backend : Option String
deriving DecidableEq

/-- Dictionary lookup `raw_data['jobs'][0]['read']['clat_ns']['percentile'][key]`:
the exact key must be present in the mapping. -/
def lookupPercentile (key : String) (m : List (String × ℚ)) : Option ℚ :=
  (m.find? (fun kv => kv.1 == key)).map (fun kv => kv.2)

/-- Python `int()` truncation toward zero of a rational. -/
def truncQ (q : ℚ) : ℤ := q.num.tdiv (q.den : ℤ)

/-- The `disk_util` policy of `_get_kpis_from_raw_data`: no `disk_util`
key yields the `'NaN'` sentinel (`some none`); exactly one entry yields
its `util`; several entries yield the minimum `util` among the entries
not carrying `aggr_util` — and `min([])` raises, failing the whole
extraction (`none`), when every entry carries `aggr_util`. -/
def extractUtil (raw : RawData) : Option (Option ℚ) :=
  match raw.disk_util with
  | none => some none
  | some l =>
    if l.length = 1 then
      l.head?.map (fun u => some u.util)
    else
      match ((l.filter (fun x => x.aggr_util = none)).map DiskUtil.util).min? with
      | none => none
      | some m => some (some m)

/-- The tag dictionary obtained from the job description: a missing
`description` key and an `eval` failure are both caught by the inner
`try`, leaving the tags absent. -/
def descTagsOf (evalDesc : String → Option DescTags) (o : JobOptions) : DescTags :=
  match o.description with
  | none => ⟨none, none, none, none⟩
  | some s => (evalDesc s).getD ⟨none, none, none, none⟩

/-- Assemble the KPI record from the extracted leaves (the unit
conversions of `_get_kpis_from_raw_data`): KiB/s to MiB/s for `bw`,
`int()` truncation for `iops`, ns to ms for `lat` and `clat90`. -/
def mkKpiRecord (rw bs iodepth numjobs : String) (rbw wbw riops wiops rlat wlat rclat wclat : ℚ)
    (util : Option ℚ) (tags : DescTags) : KpiRecord where
  rw := rw
  bs := bs
  iodepth := iodepth
  numjobs := numjobs
  r_bw := rbw / 1024
  w_bw := wbw / 1024
  bw := rbw / 1024 + wbw / 1024
  r_iops := truncQ riops
  w_iops := truncQ wiops
  iops := truncQ riops + truncQ wiops
  r_lat := rlat / 1000000
  w_lat := wlat / 1000000
  lat := rlat / 1000000 + wlat / 1000000
  r_clat90 := rclat / 1000000
  w_clat90 := wclat / 1000000
  clat90 := rclat / 1000000 + wclat / 1000000
  util := util
  driver := tags.driver
  format := tags.format
  round := tags.round
  backend := tags.backend

/-- The four required leaves of the `job options` dictionary
(`rw`, `bs`, `iodepth`, `numjobs`); any missing key fails. -/
def optionLeaves (o : JobOptions) : Option (String × String × String × String) :=
  o.rw.bind fun rw =>
  o.bs.bind fun bs =>
  o.iodepth.bind fun iodepth =>
  o.numjobs.map fun numjobs => (rw, bs, iodepth, numjobs)

/-- The four required numeric leaves of one side (`read` or `write`):
`bw`, `iops`, `lat_ns -> mean` and `clat_ns -> percentile -> "90.000000"`;
any missing key fails. -/
def sideLeaves (s : SideStats) : Option (ℚ × ℚ × ℚ × ℚ) :=
  s.bw.bind fun bw =>
  s.iops.bind fun iops =>
  s.lat_mean.bind fun lat =>
  s.clat_percentile.bind fun m =>
  (lookupPercentile "90.000000" m).map fun clat => (bw, iops, lat, clat)

/-- `FioTestReporter._get_kpis_from_raw_data`, parametrised by the
python `eval` of the description string (an external interpreter).
`none` models the `(1, None)` failure result; any failed dictionary
access fails the whole extraction, exactly as the raised `KeyError`
caught by the surrounding `try` does (the accesses are grouped per
dictionary here; being pure lookups, the grouping does not change which
records fail). -/
def _get_kpis_from_raw_data (evalDesc : String → Option DescTags)
    (raw : RawData) : Option KpiRecord :=
  raw.jobs.head?.bind fun job =>
  (optionLeaves job.options).bind fun olv =>
  (sideLeaves job.read).bind fun rlv =>
  (sideLeaves job.write).bind fun wlv =>
  (extractUtil raw).map fun util =>
    mkKpiRecord olv.1 olv.2.1 olv.2.2.1 olv.2.2.2
      rlv.1 wlv.1 rlv.2.1 wlv.2.1 rlv.2.2.1 wlv.2.2.1 rlv.2.2.2 wlv.2.2.2
      util (descTagsOf evalDesc job.options)

/-! ### RunCollector
The two accumulation loops of `FioTestReporter`.  The file-system walk,
tarball unpacking and `.fiolog` filtering of `load_raw_data_from_fio_logs`
are external collaborators; the embedding receives the list of already
read file contents.  Note the asymmetry translated verbatim from the
source: the loading loop skips a file whose extraction failed and keeps
going, while the KPI loop `return 1`s out of the whole batch at the first
record whose KPI extraction fails. -/

/-- The per-file loop body of `load_raw_data_from_fio_logs` (lines
201-204): append the raw data on success, skip the file on failure. -/
def loadGo {R : Type} (decode : List String → Option R) :
    List (List String) → List R → List R
  | [], acc => acc
  | c :: rest, acc =>
    match _get_raw_data_from_fio_log decode c with
    | some r => loadGo decode rest (acc ++ [r])
    | none => loadGo decode rest acc

/-- `FioTestReporter.load_raw_data_from_fio_logs` over the list of file
contents: returns the status (always `0` once the params check passed)
and the accumulated `raw_data_list`. -/
def load_raw_data_from_fio_logs {R : Type} (decode : List String → Option R)
    (blobs : List (List String)) : Nat × List R :=
  (0, loadGo decode blobs [])

/-- The loop of `calculate_performance_kpis` (lines 329-337): append the
KPI record on success, `return 1` — keeping the KPI records accumulated
so far and dropping every later record — at the first failure. -/
def calcGo (evalDesc : String → Option DescTags) :
    List RawData → List KpiRecord → Nat × List KpiRecord
  | [], acc => (0, acc)
  | r :: rest, acc =>
    match _get_kpis_from_raw_data evalDesc r with
    | some k => calcGo evalDesc rest (acc ++ [k])
    | none => (1, acc)

/-- `FioTestReporter.calculate_performance_kpis`: returns the status and
the final `perf_kpi_list`. -/
def calculate_performance_kpis (evalDesc : String → Option DescTags)
    (raw_data_list : List RawData) : Nat × List KpiRecord :=
  calcGo evalDesc raw_data_list []

theorem loadGo_eq {R : Type} (decode : List String → Option R)
    (blobs : List (List String)) (acc : List R) :
    loadGo decode blobs acc =
      acc ++ blobs.filterMap (_get_raw_data_from_fio_log decode) := by
  induction blobs generalizing acc with
  | nil => simp [loadGo]
  | cons c rest ih =>
    cases hc : _get_raw_data_from_fio_log decode c with
    | none => simp [loadGo, hc, ih]
    | some r => simp [loadGo, hc, ih]

theorem calcGo_all_ok (evalDesc : String → Option DescTags)
    (rds : List RawData) (acc : List KpiRecord)
    (h : ∀ r ∈ rds, (_get_kpis_from_raw_data evalDesc r).isSome = true) :
    calcGo evalDesc rds acc =
      (0, acc ++ rds.filterMap (_get_kpis_from_raw_data evalDesc)) := by
  induction rds generalizing acc with
  | nil => simp [calcGo]
  | cons r rest ih =>
    have hr := h r (List.mem_cons_self r rest)
    rcases Option.isSome_iff_exists.mp hr with ⟨k, hk⟩
    have hrest : ∀ x ∈ rest, (_get_kpis_from_raw_data evalDesc x).isSome = true :=
      fun x hx => h x (List.mem_cons_of_mem r hx)
    simp [calcGo, hk, ih _ hrest, List.filterMap_cons]

theorem calcGo_first_failure (evalDesc : String → Option DescTags)
    (pre rest : List RawData) (bad : RawData) (acc : List KpiRecord)
    (hpre : ∀ r ∈ pre, (_get_kpis_from_raw_data evalDesc r).isSome = true)
    (hbad : _get_kpis_from_raw_data evalDesc bad = none) :
    calcGo evalDesc (pre ++ bad :: rest) acc =
      (1, acc ++ pre.filterMap (_get_kpis_from_raw_data evalDesc)) := by
  induction pre generalizing acc with
  | nil => simp [calcGo, hbad]
  | cons r rs ih =>
    have hr := hpre r (List.mem_cons_self r rs)
    rcases Option.isSome_iff_exists.mp hr with ⟨k, hk⟩
    have hrs : ∀ x ∈ rs, (_get_kpis_from_raw_data evalDesc x).isSome = true :=
      fun x hx => hpre x (List.mem_cons_of_mem r hx)
    simp [calcGo, hk, ih _ hrs, List.filterMap_cons]

/-- A python `eval` of the description that always fails (its result is
irrelevant to the records below, which carry no description). -/
def evalDescNone : String → Option DescTags := fun _ => none

/-- A raw record whose KPI extraction fails: its `jobs` list is empty,
so `raw_data['jobs'][0]` raises. -/
def badRaw : RawData := { jobs := [], disk_util := none }

/-- A fully populated job entry whose KPI extraction succeeds. -/
def goodJob : FioJob :=
  { options :=
      { rw := some "read", bs := some "4k", iodepth := some "1",
        numjobs := some "1", description := none },
    read :=
      { bw := some 1024, iops := some 10, lat_mean := some 1000000,
        clat_percentile := some [("90.000000", 2000000)] },
    write :=
      { bw := some 0, iops := some 0, lat_mean := some 0,
        clat_percentile := some [("90.000000", 0)] } }

/-- A raw record whose KPI extraction succeeds. -/
def goodRaw : RawData := { jobs := [goodJob], disk_util := none }

/-- Claim C1 (counterexample): with `raw_data_list = [badRaw, goodRaw]`,
the KPI extraction of `goodRaw` succeeds, yet `calculate_performance_kpis`
returns status `1` with an empty `perf_kpi_list`: the failing first
record aborts the whole batch and the succeeding record's KPIs are never
produced, contradicting the claimed per-record isolation. -/
theorem C1_failure_isolation_counterexample :
    (_get_kpis_from_raw_data evalDescNone goodRaw).isSome = true ∧
    _get_kpis_from_raw_data evalDescNone badRaw = none ∧
    calculate_performance_kpis evalDescNone [badRaw, goodRaw] = (1, []) :=
  ⟨rfl, rfl, rfl⟩

/-- Claim C1 (amended): failure isolation holds at the log-loading
boundary but not at the KPI boundary.  `load_raw_data_from_fio_logs`
skips each file whose json-block extraction fails and still loads every
other file, returning status `0`.  `calculate_performance_kpis`, however,
aborts at the first raw record whose KPI extraction fails: it returns
status `1` and keeps only the KPI records of the records preceding the
first failure; only when every record succeeds does it return status `0`
with the KPI records of all records in order. -/
theorem C1_failure_isolation_amended (evalDesc : String → Option DescTags) :
    (∀ rds : List RawData,
        (∀ r ∈ rds, (_get_kpis_from_raw_data evalDesc r).isSome = true) →
        calculate_performance_kpis evalDesc rds =
          (0, rds.filterMap (_get_kpis_from_raw_data evalDesc))) ∧
    (∀ (pre rest : List RawData) (bad : RawData),
        (∀ r ∈ pre, (_get_kpis_from_raw_data evalDesc r).isSome = true) →
        _get_kpis_from_raw_data evalDesc bad = none →
        calculate_performance_kpis evalDesc (pre ++ bad :: rest) =
          (1, pre.filterMap (_get_kpis_from_raw_data evalDesc))) ∧
    (∀ (R : Type) (decode : List String → Option R) (blobs : List (List String)),
        load_raw_data_from_fio_logs decode blobs =
          (0, blobs.filterMap (_get_raw_data_from_fio_log decode))) := by
  refine ⟨?_, ?_, ?_⟩
  · intro rds h
    unfold calculate_performance_kpis
    rw [calcGo_all_ok evalDesc rds [] h]
    simp
  · intro pre rest bad hpre hbad
    unfold calculate_performance_kpis
    rw [calcGo_first_failure evalDesc pre rest bad [] hpre hbad]
    simp
  · intro R decode blobs
    unfold load_raw_data_from_fio_logs
    rw [loadGo_eq]
    simp

/-- Witness for the amended claim C1, at the concrete batch
`[goodRaw] ++ badRaw :: []`: the KPIs of the prefix survive and the
status is `1`. -/
theorem C1_failure_isolation_amended_witness :
    calculate_performance_kpis evalDescNone ([goodRaw] ++ badRaw :: []) =
      (1, [goodRaw].filterMap (_get_kpis_from_raw_data evalDescNone)) :=
  (C1_failure_isolation_amended evalDescNone).2.1 [goodRaw] [] badRaw
    (by decide) rfl

/-! ### ComparativeAggregator
`FioBenchmarkReporter.test` of `block/GenerateBenchmarkReport.py` reads
the base and test report csv files (external), builds the comparison
frame from the seven dimension columns of the test frame
(`drop_duplicates`, `sort_values`, `reset_index`), inserts 24 indicator
columns with value `0`, and then iterates over the rows: the loop body
computes the six bandwidth statistics of the current row from the
matching base and test rows and writes them back — and `break`s after
the very first row.  `scipy` standard deviation (`std(ddof=1)`) and the
significance (`1 - pvalue` of the t-test in `_get_significance`) are
external collaborators, taken as the parameters `std` and `signi`. -/

/-- One row of a report csv produced by the network reporter (the
columns `FioBenchmarkReporter.test` reads). -/
structure CsvRow where
  Backend : String
  Driver : String
  Format : String
  RW : String
  BS : String
  IODepth : ℕ
  Numjobs : ℕ
  Round : ℕ
  BW : ℚ
  IOPS : ℚ
  LAT : ℚ
  CLAT90 : ℚ
  Util : ℚ
deriving DecidableEq

/-- A 7-dimension configuration bucket (`round` excluded). -/
structure Dims where
  Backend : String
  Driver : String
  Format : String
  RW : String
  BS : String
  IODepth : ℕ
  Numjobs : ℕ
deriving DecidableEq

/-- The 7-dimension tuple of a csv row. -/
def CsvRow.dims (r : CsvRow) : Dims :=
  ⟨r.Backend, r.Driver, r.Format, r.RW, r.BS, r.IODepth, r.Numjobs⟩

/-- Lexicographic comparison over the seven dimension columns, the key
order of `sort_values(by=[Backend, ..., Numjobs])`. -/
def Dims.cmp (a b : Dims) : Ordering :=
  ((((((compare a.Backend b.Backend).then (compare a.Driver b.Driver)).then
    (compare a.Format b.Format)).then (compare a.RW b.RW)).then
    (compare a.BS b.BS)).then (compare a.IODepth b.IODepth)).then
    (compare a.Numjobs b.Numjobs)

/-- The sort order of the comparison frame. -/
def DimsLe (a b : Dims) : Prop := Dims.cmp a b ≠ Ordering.gt

instance : DecidableRel DimsLe := fun a b => by
  unfold DimsLe
  infer_instance

/-- Helper of `dedupFirst`: drop the elements already seen, keep the
first occurrence of each new element. -/
def dedupFirstAux (seen : List Dims) : List Dims → List Dims
  | [] => []
  | d :: rest =>
    if d ∈ seen then dedupFirstAux seen rest
    else d :: dedupFirstAux (d :: seen) rest

/-- `drop_duplicates` of pandas: keep the first occurrence of each
dimension tuple, in order of first appearance. -/
def dedupFirst (l : List Dims) : List Dims := dedupFirstAux [] l

/-- The bucket list of the comparison frame: distinct dimension tuples
of the test frame, sorted (`drop_duplicates` then `sort_values`; the
tuples being distinct, any sort by the lexicographic key yields this
list). -/
def bucketList (df_test : List CsvRow) : List Dims :=
  List.insertionSort DimsLe (dedupFirst (df_test.map CsvRow.dims))

/-- One row of the comparison frame: the seven dimension columns and the
24 indicator columns inserted by `FioBenchmarkReporter.test`. -/
structure ReportRow where
  Backend : String
  Driver : String
  Format : String
  RW : String
  BS : String
  IODepth : ℕ
  Numjobs : ℕ
  baseAvgBW : ℚ
  baseSdBW : ℚ
  testAvgBW : ℚ
  testSdBW : ℚ
  diffBW : ℚ
  signiBW : ℚ
  baseAvgIOPS : ℚ
  baseSdIOPS : ℚ
  testAvgIOPS : ℚ
  testSdIOPS : ℚ
  diffIOPS : ℚ
  signiIOPS : ℚ
  baseAvgLAT : ℚ
  baseSdLAT : ℚ
  testAvgLAT : ℚ
  testSdLAT : ℚ
  diffLAT : ℚ
  signiLAT : ℚ
  baseAvgUtil : ℚ
  baseSdUtil : ℚ
  testAvgUtil : ℚ
  testSdUtil : ℚ
  diffUtil : ℚ
  signiUtil : ℚ
deriving DecidableEq

/-- The 7-dimension tuple of a comparison row. -/
def ReportRow.dims (r : ReportRow) : Dims :=
  ⟨r.Backend, r.Driver, r.Format, r.RW, r.BS, r.IODepth, r.Numjobs⟩

/-- A freshly inserted comparison row: dimension columns from the
bucket, all 24 indicator columns at their insertion value `0`. -/
def initRow (d : Dims) : ReportRow :=
  { Backend := d.Backend, Driver := d.Driver, Format := d.Format,
    RW := d.RW, BS := d.BS, IODepth := d.IODepth, Numjobs := d.Numjobs,
    baseAvgBW := 0, baseSdBW := 0, testAvgBW := 0, testSdBW := 0,
    diffBW := 0, signiBW := 0,
    baseAvgIOPS := 0, baseSdIOPS := 0, testAvgIOPS := 0, testSdIOPS := 0,
    diffIOPS := 0, signiIOPS := 0,
    baseAvgLAT := 0, baseSdLAT := 0, testAvgLAT := 0, testSdLAT := 0,
    diffLAT := 0, signiLAT := 0,
    baseAvgUtil := 0, baseSdUtil := 0, testAvgUtil := 0, testSdUtil := 0,
    diffUtil := 0, signiUtil := 0 }

/-- The row selection of the loop body (lines 93-109): the chained
boolean conjunction of the seven per-column comparisons against the
current series. -/
def matchRows (s : ReportRow) (rows : List CsvRow) : List CsvRow :=
  rows.filter (fun r =>
    (r.Backend == s.Backend) && (r.Driver == s.Driver) &&
    (r.Format == s.Format) && (r.RW == s.RW) && (r.BS == s.BS) &&
    (r.IODepth == s.IODepth) && (r.Numjobs == s.Numjobs))

/-- Column mean (`pandas.Series.mean`). -/
def meanQ (xs : List ℚ) : ℚ := xs.sum / (xs.length : ℚ)

/-- The `BW(MiB/s)` column of a frame. -/
def bwCol (rows : List CsvRow) : List ℚ := rows.map CsvRow.BW

/-- The `IOPS` column of a frame. -/
def iopsCol (rows : List CsvRow) : List ℚ := rows.map CsvRow.IOPS

/-- The `LAT(ms)` column of a frame. -/
def latCol (rows : List CsvRow) : List ℚ := rows.map CsvRow.LAT

/-- The `Util(%)` column of a frame. -/
def utilCol (rows : List CsvRow) : List ℚ := rows.map CsvRow.Util

/-- The loop body of `FioBenchmarkReporter.test` (lines 113-122): fill
the six bandwidth statistics of the series from the matching base and
test rows. -/
def fillBW (std : List ℚ → ℚ) (signi : List ℚ → List ℚ → ℚ)
    (df_base df_test : List CsvRow) (s : ReportRow) : ReportRow :=
  let b := bwCol (matchRows s df_base)
  let t := bwCol (matchRows s df_test)
  let baseAvg := meanQ b
  let testAvg := meanQ t
  { s with
    baseAvgBW := baseAvg,
    baseSdBW := std b / baseAvg * 100,
    testAvgBW := testAvg,
    testSdBW := std t / testAvg * 100,
    diffBW := (testAvg - baseAvg) / baseAvg * 100,
    signiBW := signi b t }

/-- `FioBenchmarkReporter.test`: build the comparison frame from the
distinct sorted buckets of the test frame with 24 zero-initialised
indicator columns, then run the `iterrows` loop — whose body fills the
bandwidth sextuple of the current row and whose unconditional `break`
stops it after the first row. -/
def FioBenchmarkReporter.test (std : List ℚ → ℚ) (signi : List ℚ → List ℚ → ℚ)
    (df_base df_test : List CsvRow) : List ReportRow :=
  match bucketList df_test with
  | [] => []
  | d :: rest => fillBW std signi df_base df_test (initRow d) :: rest.map initRow

/-- The bucket selection of the specification (§4.5 step 2): all rows
whose 7-dimension tuple exactly equals the bucket. -/
def selectBucket (d : Dims) (rows : List CsvRow) : List CsvRow :=
  rows.filter (fun r => r.dims == d)

/-- Modelled from the spec (§4.5 steps 3-4): the per-indicator sextuple
(base-mean, base-%SD, test-mean, test-%SD, %difference, significance)
with %SD = std/mean*100 and %difference = (test-mean - base-mean) /
base-mean * 100. -/
def specSextuple (std : List ℚ → ℚ) (signi : List ℚ → List ℚ → ℚ)
    (base test : List ℚ) : ℚ × ℚ × ℚ × ℚ × ℚ × ℚ :=
  (meanQ base, std base / meanQ base * 100, meanQ test,
   std test / meanQ test * 100,
   (meanQ test - meanQ base) / meanQ base * 100, signi base test)

/-- Modelled from the spec (§4.5 step 5): one comparison row per bucket
carrying the complete sextuple for each of the four indicators
(bandwidth, IOPS, latency, utilization). -/
def specRow (std : List ℚ → ℚ) (signi : List ℚ → List ℚ → ℚ)
    (df_base df_test : List CsvRow) (d : Dims) : ReportRow :=
  let b := selectBucket d df_base
  let t := selectBucket d df_test
  let sbw := specSextuple std signi (bwCol b) (bwCol t)
  let sio := specSextuple std signi (iopsCol b) (iopsCol t)
  let sla := specSextuple std signi (latCol b) (latCol t)
  let sut := specSextuple std signi (utilCol b) (utilCol t)
  { Backend := d.Backend, Driver := d.Driver, Format := d.Format,
    RW := d.RW, BS := d.BS, IODepth := d.IODepth, Numjobs := d.Numjobs,
    baseAvgBW := sbw.1, baseSdBW := sbw.2.1, testAvgBW := sbw.2.2.1,
    testSdBW := sbw.2.2.2.1, diffBW := sbw.2.2.2.2.1, signiBW := sbw.2.2.2.2.2,
    baseAvgIOPS := sio.1, baseSdIOPS := sio.2.1, testAvgIOPS := sio.2.2.1,
    testSdIOPS := sio.2.2.2.1, diffIOPS := sio.2.2.2.2.1, signiIOPS := sio.2.2.2.2.2,
    baseAvgLAT := sla.1, baseSdLAT := sla.2.1, testAvgLAT := sla.2.2.1,
    testSdLAT := sla.2.2.2.1, diffLAT := sla.2.2.2.2.1, signiLAT := sla.2.2.2.2.2,
    baseAvgUtil := sut.1, baseSdUtil := sut.2.1, testAvgUtil := sut.2.2.1,
    testSdUtil := sut.2.2.2.1, diffUtil := sut.2.2.2.2.1, signiUtil := sut.2.2.2.2.2 }

/-- Modelled from the spec (§4.5): the full comparison table, one fully
computed row per distinct sorted bucket of the test table. -/
def compare_spec (std : List ℚ → ℚ) (signi : List ℚ → List ℚ → ℚ)
    (df_base df_test : List CsvRow) : List ReportRow :=
  (bucketList df_test).map (specRow std signi df_base df_test)

/-- The bandwidth sextuple of a comparison row. -/
def ReportRow.bwSext (r : ReportRow) : ℚ × ℚ × ℚ × ℚ × ℚ × ℚ :=
  (r.baseAvgBW, r.baseSdBW, r.testAvgBW, r.testSdBW, r.diffBW, r.signiBW)

/-- The eighteen indicator cells of a comparison row other than the
bandwidth sextuple (IOPS, latency and utilization sextuples). -/
def ReportRow.nonBwStats (r : ReportRow) : List ℚ :=
  [r.baseAvgIOPS, r.baseSdIOPS, r.testAvgIOPS, r.testSdIOPS, r.diffIOPS,
   r.signiIOPS, r.baseAvgLAT, r.baseSdLAT, r.testAvgLAT, r.testSdLAT,
   r.diffLAT, r.signiLAT, r.baseAvgUtil, r.baseSdUtil, r.testAvgUtil,
   r.testSdUtil, r.diffUtil, r.signiUtil]

theorem mem_dedupFirstAux (l : List Dims) (seen : List Dims) (x : Dims) :
    x ∈ dedupFirstAux seen l ↔ (x ∈ l ∧ x ∉ seen) := by
  induction l generalizing seen with
  | nil => simp [dedupFirstAux]
  | cons d rest ih =>
    by_cases hd : d ∈ seen
    · rw [show dedupFirstAux seen (d :: rest) = dedupFirstAux seen rest by
        simp [dedupFirstAux, hd]]
      rw [ih seen]
      simp only [List.mem_cons]
      constructor
      · rintro ⟨hx, hns⟩
        exact ⟨Or.inr hx, hns⟩
      · rintro ⟨hx | hx, hns⟩
        · subst hx; exact absurd hd hns
        · exact ⟨hx, hns⟩
    · rw [show dedupFirstAux seen (d :: rest) =
          d :: dedupFirstAux (d :: seen) rest by simp [dedupFirstAux, hd]]
      simp only [List.mem_cons, ih (d :: seen)]
      constructor
      · rintro (rfl | ⟨hx, hns⟩)
        · exact ⟨Or.inl rfl, hd⟩
        · exact ⟨Or.inr hx, fun hc => hns (Or.inr hc)⟩
      · rintro ⟨rfl | hx, hns⟩
        · exact Or.inl rfl
        · by_cases hxd : x = d
          · exact Or.inl hxd
          · exact Or.inr ⟨hx, fun hc => hc.elim hxd hns⟩

theorem nodup_dedupFirstAux (l : List Dims) (seen : List Dims) :
    (dedupFirstAux seen l).Nodup := by
  induction l generalizing seen with
  | nil => simp [dedupFirstAux]
  | cons d rest ih =>
    by_cases hd : d ∈ seen
    · rw [show dedupFirstAux seen (d :: rest) = dedupFirstAux seen rest by
        simp [dedupFirstAux, hd]]
      exact ih seen
    · rw [show dedupFirstAux seen (d :: rest) =
          d :: dedupFirstAux (d :: seen) rest by simp [dedupFirstAux, hd]]
      refine List.nodup_cons.mpr ⟨?_, ih (d :: seen)⟩
      intro hc
      rcases (mem_dedupFirstAux rest (d :: seen) d).mp hc with ⟨_, hns⟩
      exact hns (List.mem_cons_self d seen)

theorem mem_dedupFirst (l : List Dims) (x : Dims) :
    x ∈ dedupFirst l ↔ x ∈ l := by
  unfold dedupFirst
  rw [mem_dedupFirstAux]
  simp

theorem nodup_dedupFirst (l : List Dims) : (dedupFirst l).Nodup :=
  nodup_dedupFirstAux l []

theorem nodup_bucketList (df_test : List CsvRow) : (bucketList df_test).Nodup :=
  ((List.perm_insertionSort DimsLe _).nodup_iff).mpr
    (nodup_dedupFirst (df_test.map CsvRow.dims))

theorem mem_bucketList (df_test : List CsvRow) (d : Dims) :
    d ∈ bucketList df_test ↔ d ∈ df_test.map CsvRow.dims := by
  unfold bucketList
  rw [List.Perm.mem_iff (List.perm_insertionSort DimsLe _)]
  exact mem_dedupFirst _ d

theorem dims_initRow (d : Dims) : (initRow d).dims = d := rfl

theorem dims_fillBW (std : List ℚ → ℚ) (signi : List ℚ → List ℚ → ℚ)
    (df_base df_test : List CsvRow) (s : ReportRow) :
    (fillBW std signi df_base df_test s).dims = s.dims := rfl

theorem dims_specRow (std : List ℚ → ℚ) (signi : List ℚ → List ℚ → ℚ)
    (df_base df_test : List CsvRow) (d : Dims) :
    (specRow std signi df_base df_test d).dims = d := rfl

theorem nonBwStats_fillBW (std : List ℚ → ℚ) (signi : List ℚ → List ℚ → ℚ)
    (df_base df_test : List CsvRow) (s : ReportRow) :
    (fillBW std signi df_base df_test s).nonBwStats = s.nonBwStats := rfl

theorem matchRows_initRow (d : Dims) (rows : List CsvRow) :
    matchRows (initRow d) rows = selectBucket d rows := by
  unfold matchRows selectBucket
  apply List.filter_congr
  intro r _
  rcases d with ⟨B, D, F, W, S, I, N⟩
  rw [Bool.eq_iff_iff]
  simp [initRow, CsvRow.dims, Dims.mk.injEq, and_assoc]

theorem test_map_dims (std : List ℚ → ℚ) (signi : List ℚ → List ℚ → ℚ)
    (df_base df_test : List CsvRow) :
    (FioBenchmarkReporter.test std signi df_base df_test).map ReportRow.dims =
      bucketList df_test := by
  unfold FioBenchmarkReporter.test
  cases h : bucketList df_test with
  | nil => simp
  | cons d rest =>
    simp only [List.map_cons, List.map_map]
    rw [dims_fillBW, dims_initRow]
    congr 1
    rw [show ReportRow.dims ∘ initRow = id from rfl, List.map_id]

theorem spec_map_dims (std : List ℚ → ℚ) (signi : List ℚ → List ℚ → ℚ)
    (df_base df_test : List CsvRow) :
    (compare_spec std signi df_base df_test).map ReportRow.dims =
      bucketList df_test := by
  unfold compare_spec
  rw [List.map_map]
  rw [show ReportRow.dims ∘ specRow std signi df_base df_test = id from rfl,
    List.map_id]

/-- Claim C2 (amended): `FioBenchmarkReporter.test` does emit exactly
one comparison row for every distinct 7-dimension bucket of the test
table — the emitted dimension tuples are duplicate-free, coincide with
the buckets of the test table, and agree bucket-for-bucket with the
specified comparison table — but only the first emitted row carries a
computed sextuple, and only for bandwidth: its bandwidth sextuple equals
the specified one while its other eighteen indicator cells keep the
insertion value `0`, and every row after the first keeps all twenty-four
indicator cells at `0` (the loop fills the bandwidth statistics of the
first row and `break`s). -/
theorem C2_comparison_rows_amended (std : List ℚ → ℚ)
    (signi : List ℚ → List ℚ → ℚ) (df_base df_test : List CsvRow) :
    ((FioBenchmarkReporter.test std signi df_base df_test).map ReportRow.dims).Nodup ∧
    (∀ d : Dims,
      d ∈ (FioBenchmarkReporter.test std signi df_base df_test).map ReportRow.dims ↔
        d ∈ df_test.map CsvRow.dims) ∧
    ((FioBenchmarkReporter.test std signi df_base df_test).map ReportRow.dims =
      (compare_spec std signi df_base df_test).map ReportRow.dims) ∧
    (∀ r ∈ (FioBenchmarkReporter.test std signi df_base df_test).drop 1,
      r = initRow r.dims) ∧
    (∀ r0 s0,
      (FioBenchmarkReporter.test std signi df_base df_test).head? = some r0 →
      (compare_spec std signi df_base df_test).head? = some s0 →
      r0.bwSext = s0.bwSext ∧ r0.nonBwStats = (initRow r0.dims).nonBwStats) := by
  refine ⟨?_, ?_, ?_, ?_, ?_⟩
  · rw [test_map_dims]
    exact nodup_bucketList df_test
  · intro d
    rw [test_map_dims]
    exact mem_bucketList df_test d
  · rw [test_map_dims, spec_map_dims]
  · intro r hr
    cases h : bucketList df_test with
    | nil =>
      simp only [FioBenchmarkReporter.test, h] at hr
      simp at hr
    | cons d rest =>
      simp only [FioBenchmarkReporter.test, h, List.drop_succ_cons,
        List.drop_zero] at hr
      rcases List.mem_map.mp hr with ⟨d', _, rfl⟩
      rw [dims_initRow]
  · intro r0 s0 h0 hs0
    cases h : bucketList df_test with
    | nil =>
      simp only [FioBenchmarkReporter.test, h] at h0
      cases h0
    | cons d rest =>
      simp only [FioBenchmarkReporter.test, h, List.head?_cons] at h0
      simp only [compare_spec, h, List.map_cons, List.head?_cons] at hs0
      have hr0 : r0 = fillBW std signi df_base df_test (initRow d) :=
        (Option.some.inj h0).symm
      have hs0e : s0 = specRow std signi df_base df_test d :=
        (Option.some.inj hs0).symm
      subst hr0
      subst hs0e
      constructor
      · simp [ReportRow.bwSext, fillBW, specRow, specSextuple, matchRows_initRow]
      · rw [nonBwStats_fillBW, dims_fillBW, dims_initRow]

/-- A degenerate standard-deviation collaborator, sufficient for the
counterexample (its value is irrelevant to the cells compared). -/
def stdZero : List ℚ → ℚ := fun _ => 0

/-- A degenerate significance collaborator. -/
def signiZero : List ℚ → List ℚ → ℚ := fun _ _ => 0

/-- One row of the base report csv. -/
def baseRowC : CsvRow :=
  { Backend := "HDD", Driver := "scsi", Format := "raw", RW := "read",
    BS := "4k", IODepth := 1, Numjobs := 1, Round := 1,
    BW := 100, IOPS := 7, LAT := 1, CLAT90 := 1, Util := 50 }

/-- One row of the test report csv, in the same 7-dimension bucket. -/
def testRowC : CsvRow :=
  { baseRowC with BW := 200, IOPS := 9, LAT := 2, CLAT90 := 2, Util := 60 }

/-- The single bucket shared by `baseRowC` and `testRowC`. -/
def dimsC : Dims := ⟨"HDD", "scsi", "raw", "read", "4k", 1, 1⟩

/-- Claim C2 (counterexample): on one-row base and test tables sharing
one bucket, the emitted comparison row's `BASE-AVG-IOPS` cell still
holds the insertion value `0`, while the specified complete sextuple
requires the base IOPS mean `7`: the emitted row does not carry the
sextuples of the four indicators, so the produced table differs from the
specified one. -/
theorem C2_comparison_rows_counterexample :
    ((FioBenchmarkReporter.test stdZero signiZero [baseRowC] [testRowC]).map
        (fun r => r.baseAvgIOPS) = [0]) ∧
    ((compare_spec stdZero signiZero [baseRowC] [testRowC]).map
        (fun r => r.baseAvgIOPS) = [7]) ∧
    FioBenchmarkReporter.test stdZero signiZero [baseRowC] [testRowC] ≠
      compare_spec stdZero signiZero [baseRowC] [testRowC] := by
  have hA : (FioBenchmarkReporter.test stdZero signiZero [baseRowC] [testRowC]).map
      (fun r => r.baseAvgIOPS) = [0] := rfl
  have hB0 : (compare_spec stdZero signiZero [baseRowC] [testRowC]).map
      (fun r => r.baseAvgIOPS) = [meanQ [(7 : ℚ)]] := rfl
  have hm : meanQ [(7 : ℚ)] = 7 := by
    simp [meanQ]
  refine ⟨hA, ?_, ?_⟩
  · rw [hB0, hm]
  · intro hc
    have h2 := congrArg (List.map (fun r => ReportRow.baseAvgIOPS r)) hc
    rw [hA, hB0, hm] at h2
    norm_num at h2

/-- Witness for the amended claim C2 at the concrete tables: the bucket
of the test table appears among the emitted rows. -/
theorem C2_comparison_rows_amended_witness :
    dimsC ∈ (FioBenchmarkReporter.test stdZero signiZero [baseRowC]
      [testRowC]).map ReportRow.dims :=
  ((C2_comparison_rows_amended stdZero signiZero [baseRowC] [testRowC]).2.1
      dimsC).mpr (by decide)
